import Mathlib

/-!
Shallow embedding of `custom_components/eliot/ble.py`: the frame codec
(`_checksum`, `make_frame`, `decode_height`), the notification dispatch
(`EliotDeskClient._handle_notify`), the height-query correlation
(`EliotDeskClient.get_height`) and the connect retry loop
(`EliotDeskClient.connect`), together with theorems checking the
natural-language specification against these definitions.

Bytes are modelled as `List Nat`; Python's `bytes(...)` constructor, which
raises when an element is outside `0..255`, is modelled by `bytes_of`
returning `Option`.  Python indexing `packet[i]` is modelled with
`List.getD` at positions the source guards, and with `List.getElem?` in the
`_checked` variants used to show every access is in bounds.
-/

namespace Eliot

abbrev Bytes := List Nat

/-- Constant `END_BYTE = 0x7E` from ble.py. -/
def END_BYTE : Nat := 0x7E

/-- Function `_checksum(cmd, payload)` from ble.py: `(cmd + len(payload) + sum(payload)) & 0xFF`. -/
def checksum (cmd : Nat) (payload : Bytes) : Nat :=
  (cmd + payload.length + payload.sum) % 256

/-- The list built by `make_frame` before the `bytes(frame)` conversion:
header `F1 F1`, command, payload length, payload, checksum, terminator. -/
def frame_list (cmd : Nat) (payload : Bytes) : Bytes :=
  0xF1 :: 0xF1 :: cmd :: payload.length :: (payload ++ [checksum cmd payload, END_BYTE])

/-- Python's `bytes(l)`: succeeds iff every element fits in one byte. -/
def bytes_of (l : List Nat) : Option Bytes :=
  if l.all (fun b => b < 256) then some l else none

/-- Function `make_frame(cmd, payload)` from ble.py, with the final `bytes(frame)`
conversion modelled by `bytes_of` (it raises in Python when an element,
including the payload-length byte, exceeds 255). -/
def make_frame (cmd : Nat) (payload : Bytes) : Option Bytes :=
  bytes_of (frame_list cmd payload)

/-- A structural parse of an outbound frame, stated from the spec's
round-trip property: reads header `F1 F1`, command, declared length, then
that many payload bytes, a checksum byte and the `0x7E` terminator, and
requires the declared length to match the actual payload size. -/
def parse_frame (frame : Bytes) : Option (Nat × Nat × Bytes) :=
  match frame with
  | h1 :: h2 :: cmd :: len :: rest =>
      if h1 = 0xF1 ∧ h2 = 0xF1 ∧ rest.length = len + 2 then
        match rest.drop len with
        | [_chk, term] => if term = END_BYTE then some (cmd, len, rest.take len) else none
        | _ => none
      else none
  | _ => none

/-- Function `decode_height(packet)` from ble.py.  Mirrors the source exactly:
a short-circuit guard `len(packet) < 7 or packet[-1] != END_BYTE`,
then Variant A (`F1F1`, cmd `0x07`/`0x15`, declared length ≥ 2,
little-endian cm × 10) and Variant B (`F2F2`, cmd `0x01`, declared
length ≥ 3, big-endian, × 10 only when the value is below 300). -/
def decode_height (packet : Bytes) : Option Nat :=
  if packet.length < 7 then none
  else if packet.getD (packet.length - 1) 0 ≠ END_BYTE then none
  else
    let header1 := packet.getD 0 0
    let header2 := packet.getD 1 0
    let cmd := packet.getD 2 0
    let length := packet.getD 3 0
    if header1 = 0xF1 ∧ header2 = 0xF1 ∧ 0x02 ≤ length ∧ (cmd = 0x07 ∨ cmd = 0x15) then
      let low := packet.getD 4 0
      let high := packet.getD 5 0
      some ((high * 256 + low) * 10)
    else if header1 = 0xF2 ∧ header2 = 0xF2 ∧ cmd = 0x01 ∧ 0x03 ≤ length then
      let high := packet.getD 4 0
      let low := packet.getD 5 0
      let hm := high * 256 + low
      some (if hm < 300 then hm * 10 else hm)
    else none

/-- The lock-frame condition tested by `_handle_notify`:
`len(data) >= 6 and data[0] == 0xF2 and data[1] == 0xF2 and data[2] == 0x1F
and data[3] == 0x01`.  Note the source checks neither the terminator byte
nor a 7-byte minimum here. -/
def lock_frame_shape (data : Bytes) : Prop :=
  6 ≤ data.length ∧ data.getD 0 0 = 0xF2 ∧ data.getD 1 0 = 0xF2 ∧
    data.getD 2 0 = 0x1F ∧ data.getD 3 0 = 0x01

instance (data : Bytes) : Decidable (lock_frame_shape data) := by
  unfold lock_frame_shape; infer_instance

/-- The lock-state reading `_handle_notify` extracts when the lock-frame
condition holds: `locked_flag = data[4] == 0x01`. -/
def decode_lock (data : Bytes) : Option Bool :=
  if lock_frame_shape data then some (data.getD 4 0 == 0x01) else none

/-- The mutable fields of `EliotDeskClient` relevant to notification
dispatch and height-query correlation.  The `asyncio.Event` wait handle is
`none` when the attribute does not exist yet (`getattr` default), `some
false` when created but not set, `some true` when set.  The callback slots
are modelled by whether a callback is registered. -/
structure SessionState where
  height_mm : Option Nat
  locked : Option Bool
  height_event : Option Bool
  has_height_callback : Bool
  has_lock_callback : Bool
deriving DecidableEq

/-- The freshly constructed client: `_height_mm = None`, `_locked = None`,
no `_height_event` attribute, no callbacks registered. -/
def initState : SessionState :=
  ⟨none, none, none, false, false⟩

/-- Source line `if height_event and not height_event.is_set(): height_event.set()`. -/
def resolve_event : Option Bool → Option Bool
  | some false => some true
  | e => e

/-- Result of one `_handle_notify` call: the updated state, plus the height
and lock callback invocations it schedules (via `call_soon_threadsafe`). -/
structure NotifyEffects where
  state : SessionState
  height_cb : Option Nat
  lock_cb : Option Bool
deriving DecidableEq

/-- The height block of `_handle_notify`: when a height decodes, update the
cache, resolve an unresolved wait handle, and schedule the height callback
when one is registered; otherwise only log.  Returns the new state and the
scheduled callback invocation. -/
def apply_height (st : SessionState) (data : Bytes) : SessionState × Option Nat :=
  match decode_height data with
  | some h =>
      ({ st with height_mm := some h, height_event := resolve_event st.height_event },
       if st.has_height_callback then some h else none)
  | none => (st, none)

/-- The lock block of `_handle_notify`: on a lock-shaped buffer, when the
decoded flag differs from the cached value, update the cache and schedule
the lock callback when one is registered. -/
def apply_lock (st : SessionState) (data : Bytes) : SessionState × Option Bool :=
  match decode_lock data with
  | some flag =>
      if st.locked ≠ some flag then
        ({ st with locked := some flag },
         if st.has_lock_callback then some flag else none)
      else (st, none)
  | none => (st, none)

/-- Method `EliotDeskClient._handle_notify(data)` from ble.py: the height block
followed by the independent lock-frame block on the same buffer. -/
def handle_notify (st : SessionState) (data : Bytes) : NotifyEffects :=
  let a := apply_height st data
  let b := apply_lock a.1 data
  ⟨b.1, a.2, b.2⟩

/-- The wait-handle setup at the top of `get_height`:
`if self._height_event is None or self._height_event.is_set():
self._height_event = asyncio.Event()`. -/
def setup_height_event (st : SessionState) : SessionState :=
  match st.height_event with
  | some false => st
  | _ => { st with height_event := some false }

/-- Outcome of one `get_height` call: final state, the returned value
(`self._height_mm`), and whether the `asyncio.wait_for` timed out. -/
structure GetHeightOutcome where
  state : SessionState
  result : Option Nat
  timed_out : Bool
deriving DecidableEq

/-- Method `EliotDeskClient.get_height` from ble.py, with the wait window
abstracted by `arrival`: the notification bytes delivered before the
timeout, if any.  The wait resolves without timing out exactly when the
delivered notification set the wait handle; either way the returned value
is the cached `_height_mm` and no error is raised. -/
def get_height (st : SessionState) (arrival : Option Bytes) : GetHeightOutcome :=
  let st1 := setup_height_event st
  match arrival with
  | none => ⟨st1, st1.height_mm, true⟩
  | some data =>
      let eff := handle_notify st1 data
      if eff.state.height_event = some true then
        ⟨eff.state, eff.state.height_mm, false⟩
      else
        ⟨eff.state, eff.state.height_mm, true⟩

/-- Outcome of `EliotDeskClient.connect` once the device reference has been
resolved: either connected (recording the attempt numbers made and the
backoff sleeps performed, in order), or failed after exhausting the retry
budget, wrapping the last underlying error. -/
inductive ConnectOutcome (ε : Type) where
  | connected (attemptsMade : List Nat) (sleeps : List Nat)
  | failed (attemptsMade : List Nat) (sleeps : List Nat) (lastErr : Option ε)
deriving DecidableEq

/-- The body of the `for attempt in range(1, 4)` loop in `connect`.
`transport a = none` means attempt `a`'s connect/subscribe/handshake
sequence succeeds; `some err` means it raises `err`, after which the code
sleeps `2 * attempt` and retries.  Accumulators carry attempts and sleeps
in reverse. -/
def connect_go {ε : Type} (transport : Nat → Option ε) :
    List Nat → List Nat → List Nat → Option ε → ConnectOutcome ε
  | [], tried, sleeps, last => .failed tried.reverse sleeps.reverse last
  | a :: rest, tried, sleeps, _last =>
      match transport a with
      | none => .connected (tried.reverse ++ [a]) sleeps.reverse
      | some err => connect_go transport rest (a :: tried) (2 * a :: sleeps) (some err)

/-- Method `EliotDeskClient.connect` from ble.py, after the device reference has
been resolved, abstracted over the transport: attempts 1, 2, 3 in order;
on failure sleeps `2 * attempt` and retries; after the loop raises
`BleakError` wrapping the last error. -/
def connect {ε : Type} (transport : Nat → Option ε) : ConnectOutcome ε :=
  connect_go transport [1, 2, 3] [] [] none

/-- Variant of `decode_height` with every byte access through
`List.getElem?`: a `none` result models a Python `IndexError`, while
`some r` models a normal return of `r`.  Checks and accesses follow the
source order. -/
def decode_height_checked (packet : Bytes) : Option (Option Nat) :=
  if packet.length < 7 then some none
  else
    match packet[packet.length - 1]? with
    | none => none
    | some lastb =>
      if lastb ≠ END_BYTE then some none
      else
        match packet[0]?, packet[1]?, packet[2]?, packet[3]? with
        | some header1, some header2, some cmd, some length =>
          if header1 = 0xF1 ∧ header2 = 0xF1 ∧ 0x02 ≤ length ∧ (cmd = 0x07 ∨ cmd = 0x15) then
            match packet[4]?, packet[5]? with
            | some low, some high => some (some ((high * 256 + low) * 10))
            | _, _ => none
          else if header1 = 0xF2 ∧ header2 = 0xF2 ∧ cmd = 0x01 ∧ 0x03 ≤ length then
            match packet[4]?, packet[5]? with
            | some high, some low =>
                some (some (if high * 256 + low < 300 then (high * 256 + low) * 10
                            else high * 256 + low))
            | _, _ => none
          else some none
        | _, _, _, _ => none

/-- The lock-frame test and flag extraction of `_handle_notify` with every
byte access through `List.getElem?`: `none` models an `IndexError`,
`some r` a normal outcome `r`. -/
def decode_lock_checked (data : Bytes) : Option (Option Bool) :=
  if 6 ≤ data.length then
    match data[0]?, data[1]?, data[2]?, data[3]? with
    | some b0, some b1, some b2, some b3 =>
      if b0 = 0xF2 ∧ b1 = 0xF2 ∧ b2 = 0x1F ∧ b3 = 0x01 then
        match data[4]? with
        | some b4 => some (some (b4 == 0x01))
        | none => none
      else some none
    | _, _, _, _ => none
  else some none

/-! ## Shared helper lemmas -/

lemma getD_set_ne (l : Bytes) (i j a d : Nat) (h : i ≠ j) :
    (l.set i a).getD j d = l.getD j d := by
  simp [List.getD_eq_getElem?_getD, List.getElem?_set_ne h]

/-- Equation for `decode_height` with its local bindings zeta-expanded, for rewriting. -/
lemma decode_height_eq (packet : Bytes) :
    decode_height packet =
      if packet.length < 7 then none
      else if packet.getD (packet.length - 1) 0 ≠ END_BYTE then none
      else if packet.getD 0 0 = 0xF1 ∧ packet.getD 1 0 = 0xF1 ∧
              0x02 ≤ packet.getD 3 0 ∧
              (packet.getD 2 0 = 0x07 ∨ packet.getD 2 0 = 0x15) then
        some ((packet.getD 5 0 * 256 + packet.getD 4 0) * 10)
      else if packet.getD 0 0 = 0xF2 ∧ packet.getD 1 0 = 0xF2 ∧
              packet.getD 2 0 = 0x01 ∧ 0x03 ≤ packet.getD 3 0 then
        some (if packet.getD 4 0 * 256 + packet.getD 5 0 < 300
              then (packet.getD 4 0 * 256 + packet.getD 5 0) * 10
              else packet.getD 4 0 * 256 + packet.getD 5 0)
      else none := rfl

/-- A buffer matching the lock-frame shape has command byte `0x1F` and
header `F2F2`, so `decode_height` recognises neither variant on it. -/
lemma decode_height_none_of_lock_shape (data : Bytes) (h : lock_frame_shape data) :
    decode_height data = none := by
  obtain ⟨h6, h0, h1, h2, h3⟩ := h
  rw [decode_height_eq]
  by_cases l7 : data.length < 7
  · rw [if_pos l7]
  · rw [if_neg l7]
    by_cases ht : data.getD (data.length - 1) 0 ≠ END_BYTE
    · rw [if_pos ht]
    · rw [if_neg ht]
      rw [if_neg (by rintro ⟨ha, -⟩; rw [h0] at ha; exact absurd ha (by decide))]
      rw [if_neg (by rintro ⟨-, -, hc, -⟩; rw [h2] at hc; exact absurd hc (by decide))]

lemma decode_lock_of_shape (data : Bytes) (h : lock_frame_shape data) :
    decode_lock data = some (data.getD 4 0 == 0x01) := by
  unfold decode_lock
  rw [if_pos h]

lemma decode_lock_of_not_shape (data : Bytes) (h : ¬ lock_frame_shape data) :
    decode_lock data = none := by
  unfold decode_lock
  rw [if_neg h]

lemma apply_height_of_none (st : SessionState) (data : Bytes)
    (hd : decode_height data = none) : apply_height st data = (st, none) := by
  unfold apply_height
  rw [hd]

lemma apply_height_of_some (st : SessionState) (data : Bytes) (h : Nat)
    (hd : decode_height data = some h) :
    apply_height st data =
      ({ st with height_mm := some h, height_event := resolve_event st.height_event },
       if st.has_height_callback then some h else none) := by
  unfold apply_height
  rw [hd]

lemma apply_lock_of_none (st : SessionState) (data : Bytes)
    (hl : decode_lock data = none) : apply_lock st data = (st, none) := by
  unfold apply_lock
  rw [hl]

lemma apply_lock_of_some (st : SessionState) (data : Bytes) (flag : Bool)
    (hl : decode_lock data = some flag) :
    apply_lock st data =
      if st.locked ≠ some flag then
        ({ st with locked := some flag },
         if st.has_lock_callback then some flag else none)
      else (st, none) := by
  unfold apply_lock
  rw [hl]

/-- Equation presenting `_handle_notify` as the composition of its two blocks. -/
lemma handle_notify_eq (st : SessionState) (data : Bytes) :
    handle_notify st data =
      ⟨(apply_lock (apply_height st data).1 data).1,
       (apply_height st data).2,
       (apply_lock (apply_height st data).1 data).2⟩ := rfl

/-- The lock block never touches the height-related fields. -/
lemma apply_lock_height_fields (st : SessionState) (data : Bytes) :
    (apply_lock st data).1.height_mm = st.height_mm ∧
    (apply_lock st data).1.height_event = st.height_event ∧
    (apply_lock st data).1.has_height_callback = st.has_height_callback := by
  unfold apply_lock
  cases decode_lock data with
  | none => exact ⟨rfl, rfl, rfl⟩
  | some flag =>
    dsimp only
    split_ifs <;> exact ⟨rfl, rfl, rfl⟩

/-- The height block never touches the lock-related fields. -/
lemma apply_height_lock_fields (st : SessionState) (data : Bytes) :
    (apply_height st data).1.locked = st.locked ∧
    (apply_height st data).1.has_lock_callback = st.has_lock_callback := by
  unfold apply_height
  cases decode_height data with
  | none => exact ⟨rfl, rfl⟩
  | some h => exact ⟨rfl, rfl⟩

/-- When neither a height nor a lock frame is recognised, `_handle_notify`
is a complete no-op. -/
lemma handle_notify_none_none (st : SessionState) (data : Bytes)
    (hd : decode_height data = none) (hl : decode_lock data = none) :
    handle_notify st data = ⟨st, none, none⟩ := by
  rw [handle_notify_eq, apply_height_of_none st data hd, apply_lock_of_none st data hl]

/-! ## Claims -/

/-- C1: every inbound buffer of at least 7 bytes ending in `0x7E` with
header `F2 F2`, command byte `0x01` and declared length ≥ 3 decodes to the
big-endian 16-bit value of bytes 4 (high) and 5 (low), multiplied by 10
when below 300 and returned unchanged otherwise; in particular
`F2 F2 01 03 00 46 00 7E` decodes to 700 mm and a payload value of 750 is
returned as 750 mm. -/
theorem C1_variantB_decode :
    (∀ packet : Bytes, 7 ≤ packet.length →
      packet.getD (packet.length - 1) 0 = 0x7E →
      packet.getD 0 0 = 0xF2 → packet.getD 1 0 = 0xF2 →
      packet.getD 2 0 = 0x01 → 3 ≤ packet.getD 3 0 →
      decode_height packet =
        some (if packet.getD 4 0 * 256 + packet.getD 5 0 < 300
              then (packet.getD 4 0 * 256 + packet.getD 5 0) * 10
              else packet.getD 4 0 * 256 + packet.getD 5 0)) ∧
    decode_height [0xF2, 0xF2, 0x01, 0x03, 0x00, 0x46, 0x00, 0x7E] = some 700 ∧
    decode_height [0xF2, 0xF2, 0x01, 0x03, 0x02, 0xEE, 0x00, 0x00, 0x7E] = some 750 := by
  refine ⟨?_, by decide, by decide⟩
  intro p h7 hterm h0 h1 h2 h3
  rw [decode_height_eq]
  rw [if_neg (by omega), if_neg (by rw [hterm]; decide)]
  rw [if_neg (by rintro ⟨ha, _⟩; rw [h0] at ha; exact absurd ha (by decide))]
  rw [if_pos ⟨h0, h1, h2, h3⟩]

/-- C1 witness: the general Variant B statement applied to the concrete
buffer `F2 F2 01 03 00 46 00 7E`. -/
theorem C1_witness :
    decode_height [0xF2, 0xF2, 0x01, 0x03, 0x00, 0x46, 0x00, 0x7E] = some 700 := by
  have h := C1_variantB_decode.1 [0xF2, 0xF2, 0x01, 0x03, 0x00, 0x46, 0x00, 0x7E]
    (by decide) (by decide) (by decide) (by decide) (by decide) (by decide)
  simpa using h

/-- C2: every inbound buffer of at least 7 bytes ending in `0x7E` with
header `F1 F1`, command byte `0x07` or `0x15` and declared length ≥ 2
decodes to the little-endian 16-bit value of bytes 4 (low) and 5 (high),
multiplied by 10; in particular `F1 F1 07 02 0A 00 chk 7E` decodes to
100 mm for any checksum byte. -/
theorem C2_variantA_decode :
    (∀ packet : Bytes, 7 ≤ packet.length →
      packet.getD (packet.length - 1) 0 = 0x7E →
      packet.getD 0 0 = 0xF1 → packet.getD 1 0 = 0xF1 →
      (packet.getD 2 0 = 0x07 ∨ packet.getD 2 0 = 0x15) → 2 ≤ packet.getD 3 0 →
      decode_height packet =
        some ((packet.getD 5 0 * 256 + packet.getD 4 0) * 10)) ∧
    (∀ chk : Nat,
      decode_height [0xF1, 0xF1, 0x07, 0x02, 0x0A, 0x00, chk, 0x7E] = some 100) := by
  constructor
  · intro p h7 hterm h0 h1 h2 h3
    rw [decode_height_eq]
    rw [if_neg (by omega), if_neg (by rw [hterm]; decide)]
    rw [if_pos ⟨h0, h1, h3, h2⟩]
  · intro chk
    rw [decode_height_eq]
    norm_num [END_BYTE]

/-- C2 witness: the general Variant A statement applied to the concrete
buffer `F1 F1 07 02 0A 00 00 7E`. -/
theorem C2_witness :
    decode_height [0xF1, 0xF1, 0x07, 0x02, 0x0A, 0x00, 0x00, 0x7E] = some 100 := by
  have h := C2_variantA_decode.1 [0xF1, 0xF1, 0x07, 0x02, 0x0A, 0x00, 0x00, 0x7E]
    (by decide) (by decide) (by decide) (by decide) (Or.inl (by decide)) (by decide)
  simpa using h

/-- C3 counterexample: the 6-byte buffer `F2 F2 1F 01 01 00` is shorter
than 7 bytes and does not end in `0x7E`, yet `_handle_notify` still
produces a lock-state event (the lock check in the source requires only
6 bytes and the `F2 F2 1F 01` prefix, not the terminator), changing the
cached lock state and scheduling the lock callback — refuting the claim
that such buffers produce no lock-state event and leave the cached lock
state unchanged. -/
theorem C3_counterexample :
    ([0xF2, 0xF2, 0x1F, 0x01, 0x01, 0x00] : Bytes).length < 7 ∧
    ([0xF2, 0xF2, 0x1F, 0x01, 0x01, 0x00] : Bytes).getD 5 0 ≠ 0x7E ∧
    (handle_notify { initState with has_lock_callback := true }
        [0xF2, 0xF2, 0x1F, 0x01, 0x01, 0x00]).lock_cb = some true ∧
    (handle_notify { initState with has_lock_callback := true }
        [0xF2, 0xF2, 0x1F, 0x01, 0x01, 0x00]).state.locked = some true ∧
    initState.locked = none := by
  decide

/-- C3 amended: for every inbound buffer shorter than 7 bytes or whose
final byte is not `0x7E`, `decode_height` yields `None` without attempting
interpretation, no height event fires and the cached height and wait
handle are unchanged; the independent lock-state check, however, requires
only 6 bytes and the `F2 F2 1F 01` prefix, so such a buffer can still
produce a lock-state event — when it does not match that shape, the
notification path is a complete no-op. -/
theorem C3_amended (st : SessionState) (data : Bytes)
    (h : data.length < 7 ∨ data.getD (data.length - 1) 0 ≠ 0x7E) :
    decode_height data = none ∧
    (handle_notify st data).state.height_mm = st.height_mm ∧
    (handle_notify st data).state.height_event = st.height_event ∧
    (handle_notify st data).height_cb = none ∧
    (¬ lock_frame_shape data → handle_notify st data = ⟨st, none, none⟩) := by
  have hd : decode_height data = none := by
    rw [decode_height_eq]
    rcases h with h | h
    · rw [if_pos h]
    · by_cases hl : data.length < 7
      · rw [if_pos hl]
      · rw [if_neg hl, if_pos (by simpa [END_BYTE] using h)]
  have ha := apply_height_of_none st data hd
  refine ⟨hd, ?_, ?_, ?_, ?_⟩
  · rw [handle_notify_eq, ha]
    exact (apply_lock_height_fields st data).1
  · rw [handle_notify_eq, ha]
    exact (apply_lock_height_fields st data).2.1
  · rw [handle_notify_eq, ha]
  · intro hshape
    exact handle_notify_none_none st data hd (decode_lock_of_not_shape data hshape)

/-- C3 witness: the amended statement applied to the empty buffer. -/
theorem C3_witness :
    decode_height ([] : Bytes) = none ∧ handle_notify initState [] = ⟨initState, none, none⟩ := by
  have h := C3_amended initState [] (Or.inl (by decide))
  exact ⟨h.1, h.2.2.2.2 (by decide)⟩

/-- C4: for every command byte and every payload of bytes (each below 256,
fewer than 256 of them, so that Python's `bytes()` conversion succeeds),
`make_frame` returns exactly `6 + len(payload)` bytes laid out as header
`F1 F1`, command, payload length, payload, checksum
`(command + length + sum(payload)) mod 256`, terminator `0x7E`, and a
structural parse recovers command, length and payload unchanged. -/
theorem C4_make_frame_roundtrip (cmd : Nat) (payload : Bytes)
    (hc : cmd < 256) (hp : ∀ b ∈ payload, b < 256) (hl : payload.length < 256) :
    make_frame cmd payload =
      some (0xF1 :: 0xF1 :: cmd :: payload.length ::
        (payload ++ [(cmd + payload.length + payload.sum) % 256, 0x7E])) ∧
    (frame_list cmd payload).length = 6 + payload.length ∧
    parse_frame (frame_list cmd payload) = some (cmd, payload.length, payload) := by
  refine ⟨?_, ?_, ?_⟩
  · unfold make_frame bytes_of
    rw [if_pos]
    · rfl
    · simp only [List.all_eq_true, decide_eq_true_eq]
      intro b hb
      simp only [frame_list, checksum, END_BYTE, List.mem_cons, List.mem_append,
        List.not_mem_nil, or_false] at hb
      rcases hb with rfl | rfl | rfl | rfl | hb | rfl | rfl
      · omega
      · omega
      · exact hc
      · exact hl
      · exact hp b hb
      · exact Nat.mod_lt _ (by omega)
      · omega
  · simp [frame_list]
    omega
  · unfold parse_frame frame_list
    dsimp only
    rw [if_pos ⟨rfl, rfl, by simp⟩, List.drop_left]
    dsimp only
    rw [if_pos rfl, List.take_left]

/-- C4 witness: the round-trip statement applied to the sit-preset frame
`make_frame(0x1B, [0x02, 0xDA])`. -/
theorem C4_witness :
    make_frame 0x1B [0x02, 0xDA] = some [0xF1, 0xF1, 0x1B, 0x02, 0x02, 0xDA, 0xF9, 0x7E] ∧
    parse_frame [0xF1, 0xF1, 0x1B, 0x02, 0x02, 0xDA, 0xF9, 0x7E] =
      some (0x1B, 2, [0x02, 0xDA]) := by
  have h := C4_make_frame_roundtrip 0x1B [0x02, 0xDA] (by decide) (by decide) (by decide)
  refine ⟨?_, ?_⟩
  · rw [h.1]
    norm_num
  · have h3 := h.2.2
    rw [show frame_list 0x1B [0x02, 0xDA] = [0xF1, 0xF1, 0x1B, 0x02, 0x02, 0xDA, 0xF9, 0x7E]
      from by norm_num [frame_list, checksum, END_BYTE]] at h3
    exact h3

/-- On a lock-shaped buffer whose decoded flag equals the cached value,
`_handle_notify` changes nothing and schedules no callback. -/
lemma handle_notify_lock_same (s : SessionState) (data : Bytes)
    (hshape : lock_frame_shape data)
    (hc : s.locked = some (data.getD 4 0 == 0x01)) :
    handle_notify s data = ⟨s, none, none⟩ := by
  rw [handle_notify_eq,
    apply_height_of_none s data (decode_height_none_of_lock_shape data hshape),
    apply_lock_of_some s data _ (decode_lock_of_shape data hshape)]
  rw [if_neg (fun hcon => hcon hc)]

/-- On a lock-shaped buffer whose decoded flag differs from the cached
value, `_handle_notify` updates the cache and schedules the lock callback
when one is registered. -/
lemma handle_notify_lock_diff (s : SessionState) (data : Bytes)
    (hshape : lock_frame_shape data)
    (hc : s.locked ≠ some (data.getD 4 0 == 0x01)) :
    handle_notify s data =
      ⟨{ s with locked := some (data.getD 4 0 == 0x01) }, none,
        if s.has_lock_callback then some (data.getD 4 0 == 0x01) else none⟩ := by
  rw [handle_notify_eq,
    apply_height_of_none s data (decode_height_none_of_lock_shape data hshape),
    apply_lock_of_some s data _ (decode_lock_of_shape data hshape)]
  rw [if_pos hc]

/-- C5: on every inbound buffer matching the lock-state shape (first four
bytes `F2 F2 1F 01`, length ≥ 6), byte 4 equal to `0x01` decodes to
locked, any other value to unlocked; the cache is updated and the lock
callback fired only when the decoded value differs from the cached one,
and delivering the same buffer twice in a row fires the callback at most
once. -/
theorem C5_lock_state (st : SessionState) (data : Bytes)
    (hshape : lock_frame_shape data) :
    ((data.getD 4 0 = 0x01 → (handle_notify st data).state.locked = some true) ∧
     (data.getD 4 0 ≠ 0x01 → (handle_notify st data).state.locked = some false)) ∧
    (st.locked = some (data.getD 4 0 == 0x01) →
      handle_notify st data = ⟨st, none, none⟩) ∧
    (st.locked ≠ some (data.getD 4 0 == 0x01) → st.has_lock_callback = true →
      (handle_notify st data).state.locked = some (data.getD 4 0 == 0x01) ∧
      (handle_notify st data).lock_cb = some (data.getD 4 0 == 0x01)) ∧
    (handle_notify (handle_notify st data).state data).lock_cb = none := by
  have hlocked : (handle_notify st data).state.locked = some (data.getD 4 0 == 0x01) := by
    by_cases hc : st.locked = some (data.getD 4 0 == 0x01)
    · rw [handle_notify_lock_same st data hshape hc]
      exact hc
    · rw [handle_notify_lock_diff st data hshape hc]
  refine ⟨⟨?_, ?_⟩, ?_, ?_, ?_⟩
  · intro h4
    rw [hlocked, h4]
    rfl
  · intro h4
    rw [hlocked]
    have : (data.getD 4 0 == 0x01) = false := beq_eq_false_iff_ne.mpr h4
    rw [this]
  · exact handle_notify_lock_same st data hshape
  · intro hc hcb
    rw [handle_notify_lock_diff st data hshape hc]
    exact ⟨rfl, by rw [hcb]; rfl⟩
  · rw [handle_notify_lock_same (handle_notify st data).state data hshape hlocked]

/-- C5 witness: redundant delivery of the proper lock frame
`F2 F2 1F 01 01 00 7E` to a fresh client with a registered lock callback:
the first delivery fires the callback with `locked = true`, the immediate
redelivery fires nothing. -/
theorem C5_witness :
    (handle_notify { initState with has_lock_callback := true }
      [0xF2, 0xF2, 0x1F, 0x01, 0x01, 0x00, 0x7E]).lock_cb = some true ∧
    (handle_notify
      (handle_notify { initState with has_lock_callback := true }
        [0xF2, 0xF2, 0x1F, 0x01, 0x01, 0x00, 0x7E]).state
      [0xF2, 0xF2, 0x1F, 0x01, 0x01, 0x00, 0x7E]).lock_cb = none := by
  have h := C5_lock_state { initState with has_lock_callback := true }
    [0xF2, 0xF2, 0x1F, 0x01, 0x01, 0x00, 0x7E] (by decide)
  refine ⟨?_, h.2.2.2⟩
  have := (h.2.2.1 (by decide) rfl).2
  simpa using this

/-- The list of attempt numbers an outcome of `connect` records. -/
def ConnectOutcome.attempts {ε : Type} : ConnectOutcome ε → List Nat
  | .connected a _ => a
  | .failed a _ _ => a

/-- C6: with the device resolvable, `connect` makes at most 3 transport
attempts; when the transport fails twice then succeeds it connects on the
third attempt having slept 2 then 4 units and never makes a fourth
attempt; when all three attempts fail it raises the connection-failed
error wrapping the error of the last attempt (after backoff sleeps
2, 4, 6). -/
theorem C6_connect_retry {ε : Type} (transport : Nat → Option ε) :
    (∀ e1 e2, transport 1 = some e1 → transport 2 = some e2 → transport 3 = none →
      connect transport = .connected [1, 2, 3] [2, 4]) ∧
    (∀ e1 e2 e3, transport 1 = some e1 → transport 2 = some e2 → transport 3 = some e3 →
      connect transport = .failed [1, 2, 3] [2, 4, 6] (some e3)) ∧
    (connect transport).attempts.length ≤ 3 := by
  refine ⟨?_, ?_, ?_⟩
  · intro e1 e2 he1 he2 he3
    simp [connect, connect_go, he1, he2, he3]
  · intro e1 e2 e3 he1 he2 he3
    simp [connect, connect_go, he1, he2, he3]
  · rcases h1 : transport 1 with _ | e1
    · simp [connect, connect_go, h1, ConnectOutcome.attempts]
    · rcases h2 : transport 2 with _ | e2
      · simp [connect, connect_go, h1, h2, ConnectOutcome.attempts]
      · rcases h3 : transport 3 with _ | e3
        · simp [connect, connect_go, h1, h2, h3, ConnectOutcome.attempts]
        · simp [connect, connect_go, h1, h2, h3, ConnectOutcome.attempts]

/-- C6 witness: a transport stub failing exactly on attempts 1 and 2
connects on attempt 3 after sleeps 2 and 4; a stub that always fails
exhausts the 3 attempts after sleeps 2, 4, 6 and reports the last error. -/
theorem C6_witness :
    connect (fun n => if n ≤ 2 then some n else (none : Option Nat)) =
      ConnectOutcome.connected [1, 2, 3] [2, 4] ∧
    connect (fun n => some n) = ConnectOutcome.failed [1, 2, 3] [2, 4, 6] (some 3) := by
  have h := C6_connect_retry (fun n => if n ≤ 2 then some n else (none : Option Nat))
  have h2 := C6_connect_retry (fun n => some (n : Nat))
  exact ⟨h.1 1 2 rfl rfl rfl, h2.2.1 1 2 3 rfl rfl rfl⟩

/-- After the wait-handle setup at the top of `get_height`, the handle
always exists and is unresolved. -/
lemma setup_height_event_unresolved (st : SessionState) :
    (setup_height_event st).height_event = some false := by
  unfold setup_height_event
  rcases h : st.height_event with _ | b
  · rfl
  · cases b
    · exact h
    · rfl

lemma setup_height_event_height_mm (st : SessionState) :
    (setup_height_event st).height_mm = st.height_mm := by
  unfold setup_height_event
  rcases h : st.height_event with _ | b
  · rfl
  · cases b <;> rfl

/-- Evaluation of `get_height` when a decodable height notification arrives inside the
wait window: the handle resolves, the call does not wait out the timeout,
and the freshly decoded height is returned. -/
lemma get_height_arrival (st : SessionState) (data : Bytes) (h : Nat)
    (hd : decode_height data = some h) :
    get_height st (some data) =
      ⟨(handle_notify (setup_height_event st) data).state, some h, false⟩ := by
  have hev := setup_height_event_unresolved st
  have hah := apply_height_of_some (setup_height_event st) data h hd
  have hstate_ev :
      (handle_notify (setup_height_event st) data).state.height_event = some true := by
    rw [handle_notify_eq]
    dsimp only
    rw [(apply_lock_height_fields _ data).2.1, hah]
    dsimp only
    rw [hev]
    rfl
  have hstate_mm :
      (handle_notify (setup_height_event st) data).state.height_mm = some h := by
    rw [handle_notify_eq]
    dsimp only
    rw [(apply_lock_height_fields _ data).1, hah]
  unfold get_height
  dsimp only
  rw [if_pos hstate_ev, hstate_mm]

/-- Evaluation of `get_height` when nothing arrives inside the wait window: the wait
times out and the cached height is returned unchanged, with no error. -/
lemma get_height_timeout (st : SessionState) :
    get_height st none = ⟨setup_height_event st, st.height_mm, true⟩ := by
  unfold get_height
  dsimp only
  rw [setup_height_event_height_mm]

/-- C7: `get_height` returns the decoded height without waiting out the
timeout when a height notification arrives and resolves the wait handle,
and on timeout returns the last cached height (possibly unknown) rather
than failing. -/
theorem C7_get_height (st : SessionState) :
    (∀ data h, decode_height data = some h →
      (get_height st (some data)).result = some h ∧
      (get_height st (some data)).timed_out = false) ∧
    (get_height st none).result = st.height_mm ∧
    (get_height st none).timed_out = true := by
  refine ⟨fun data h hd => ?_, ?_, ?_⟩
  · rw [get_height_arrival st data h hd]
    exact ⟨rfl, rfl⟩
  · rw [get_height_timeout st]
  · rw [get_height_timeout st]

/-- C7 witness: a fresh client receiving the Variant A frame
`F1 F1 07 02 0A 00 00 7E` during the wait returns 100 mm without timing
out; one receiving nothing times out and returns the unknown cached
height. -/
theorem C7_witness :
    (get_height initState (some [0xF1, 0xF1, 0x07, 0x02, 0x0A, 0x00, 0x00, 0x7E])).result =
      some 100 ∧
    (get_height initState (some [0xF1, 0xF1, 0x07, 0x02, 0x0A, 0x00, 0x00, 0x7E])).timed_out =
      false ∧
    (get_height initState none).result = none := by
  have h := C7_get_height initState
  have ha := h.1 [0xF1, 0xF1, 0x07, 0x02, 0x0A, 0x00, 0x00, 0x7E] 100 (by decide)
  exact ⟨ha.1, ha.2, h.2.1⟩

/-- C8: at most one pending height-query wait handle exists (a single
slot); `get_height` creates a fresh handle exactly when none exists or the
existing one is already resolved and otherwise reuses the outstanding
unresolved one, so after setup the handle is always unresolved and a new
query never deadlocks on a stale already-signalled handle; the
notification path leaves an already-resolved handle resolved (first-write
wins, resolving twice is a no-op). -/
theorem C8_wait_handle (st : SessionState) :
    (setup_height_event st).height_event = some false ∧
    (st.height_event = some false → setup_height_event st = st) ∧
    ((st.height_event = none ∨ st.height_event = some true) →
      setup_height_event st = { st with height_event := some false }) ∧
    (∀ data, st.height_event = some true →
      (handle_notify st data).state.height_event = some true) := by
  refine ⟨setup_height_event_unresolved st, ?_, ?_, ?_⟩
  · intro h
    unfold setup_height_event
    rw [h]
  · rintro (h | h) <;> (unfold setup_height_event; rw [h])
  · intro data h
    rw [handle_notify_eq]
    dsimp only
    rw [(apply_lock_height_fields _ data).2.1]
    rcases hd : decode_height data with _ | hh
    · rw [apply_height_of_none st data hd]
      exact h
    · rw [apply_height_of_some st data hh hd]
      dsimp only
      rw [h]
      rfl

/-- C8 witness: a stale resolved handle is replaced by a fresh unresolved
one, and a height notification delivered while the handle is resolved
leaves it resolved. -/
theorem C8_witness :
    setup_height_event { initState with height_event := some true } =
      { initState with height_event := some false } ∧
    (handle_notify { initState with height_event := some true }
      [0xF1, 0xF1, 0x07, 0x02, 0x0A, 0x00, 0x00, 0x7E]).state.height_event = some true := by
  have h := C8_wait_handle { initState with height_event := some true }
  exact ⟨h.2.2.1 (Or.inr rfl), h.2.2.2 _ rfl⟩

/-- Congruence: `decode_height` reads only the length, bytes 0–3, the final byte, and
bytes 4–5 when a variant's length guard (≥ 2) holds. -/
lemma decode_height_congr (p q : Bytes)
    (hlen : p.length = q.length)
    (h0 : p.getD 0 0 = q.getD 0 0) (h1 : p.getD 1 0 = q.getD 1 0)
    (h2 : p.getD 2 0 = q.getD 2 0) (h3 : p.getD 3 0 = q.getD 3 0)
    (hlast : p.getD (p.length - 1) 0 = q.getD (q.length - 1) 0)
    (h45 : 2 ≤ p.getD 3 0 → p.getD 4 0 = q.getD 4 0 ∧ p.getD 5 0 = q.getD 5 0) :
    decode_height p = decode_height q := by
  rw [decode_height_eq p, decode_height_eq q, ← hlast, ← hlen, ← h0, ← h1, ← h2, ← h3]
  by_cases c1 : p.length < 7
  · rw [if_pos c1, if_pos c1]
  · rw [if_neg c1, if_neg c1]
    by_cases c2 : p.getD (p.length - 1) 0 ≠ END_BYTE
    · rw [if_pos c2, if_pos c2]
    · rw [if_neg c2, if_neg c2]
      by_cases c3 : p.getD 0 0 = 0xF1 ∧ p.getD 1 0 = 0xF1 ∧ 0x02 ≤ p.getD 3 0 ∧
          (p.getD 2 0 = 0x07 ∨ p.getD 2 0 = 0x15)
      · rw [if_pos c3, if_pos c3]
        obtain ⟨e4, e5⟩ := h45 c3.2.2.1
        rw [e4, e5]
      · rw [if_neg c3, if_neg c3]
        by_cases c4 : p.getD 0 0 = 0xF2 ∧ p.getD 1 0 = 0xF2 ∧ p.getD 2 0 = 0x01 ∧
            0x03 ≤ p.getD 3 0
        · rw [if_pos c4, if_pos c4]
          obtain ⟨e4, e5⟩ := h45 (Nat.le_trans (by norm_num) c4.2.2.2)
          rw [e4, e5]
        · rw [if_neg c4, if_neg c4]

/-- The lock check reads only the length, bytes 0–3, and byte 4 when the
shape matches. -/
lemma decode_lock_congr (p q : Bytes)
    (hlen : p.length = q.length)
    (h0 : p.getD 0 0 = q.getD 0 0) (h1 : p.getD 1 0 = q.getD 1 0)
    (h2 : p.getD 2 0 = q.getD 2 0) (h3 : p.getD 3 0 = q.getD 3 0)
    (h4 : lock_frame_shape p → p.getD 4 0 = q.getD 4 0) :
    decode_lock p = decode_lock q := by
  unfold decode_lock
  by_cases hs : lock_frame_shape p
  · have hs' : lock_frame_shape q := by
      refine ⟨?_, ?_, ?_, ?_, ?_⟩
      · rw [← hlen]; exact hs.1
      · rw [← h0]; exact hs.2.1
      · rw [← h1]; exact hs.2.2.1
      · rw [← h2]; exact hs.2.2.2.1
      · rw [← h3]; exact hs.2.2.2.2
    rw [if_pos hs, if_pos hs', h4 hs]
  · have hs' : ¬ lock_frame_shape q := by
      intro hq
      refine hs ⟨?_, ?_, ?_, ?_, ?_⟩
      · rw [hlen]; exact hq.1
      · rw [h0]; exact hq.2.1
      · rw [h1]; exact hq.2.2.1
      · rw [h2]; exact hq.2.2.2.1
      · rw [h3]; exact hq.2.2.2.2
    rw [if_neg hs, if_neg hs']

/-- C9: the decoded result does not depend on the checksum byte — for any
structurally valid inbound frame (total length equal to 6 plus the
declared payload length, terminator `0x7E`), overwriting the
second-to-last (checksum) byte with any value changes neither the height
decode nor the lock decode: the decoder validates structure only and
never recomputes or compares the checksum. -/
theorem C9_checksum_independent (p : Bytes) (c : Nat)
    (hstruct : p.length = 6 + p.getD 3 0)
    (_hterm : p.getD (p.length - 1) 0 = 0x7E) :
    decode_height (p.set (p.length - 2) c) = decode_height p ∧
    decode_lock (p.set (p.length - 2) c) = decode_lock p := by
  have hlen : (p.set (p.length - 2) c).length = p.length := List.length_set p _ c
  have hgd : ∀ j, j ≠ p.length - 2 →
      (p.set (p.length - 2) c).getD j 0 = p.getD j 0 :=
    fun j hj => getD_set_ne p (p.length - 2) j c 0 (Ne.symm hj)
  constructor
  · refine decode_height_congr _ p hlen (hgd 0 (by omega)) (hgd 1 (by omega))
      (hgd 2 (by omega)) (hgd 3 (by omega)) ?_ ?_
    · rw [hlen]
      exact hgd (p.length - 1) (by omega)
    · intro h2le
      have h2p : 2 ≤ p.getD 3 0 := by
        rw [← hgd 3 (by omega)]
        exact h2le
      exact ⟨hgd 4 (by omega), hgd 5 (by omega)⟩
  · refine decode_lock_congr _ p hlen (hgd 0 (by omega)) (hgd 1 (by omega))
      (hgd 2 (by omega)) (hgd 3 (by omega)) ?_
    intro hshape
    have h3p : p.getD 3 0 = 0x01 := by
      rw [← hgd 3 (by omega)]
      exact hshape.2.2.2.2
    exact hgd 4 (by omega)

/-- C9 witness: flipping the checksum byte of the structurally valid
Variant B frame `F2 F2 01 03 00 46 00 00 7E` to `0xFF` leaves both
decodes unchanged. -/
theorem C9_witness :
    decode_height
        (([0xF2, 0xF2, 0x01, 0x03, 0x00, 0x46, 0x00, 0x00, 0x7E] : Bytes).set
          (([0xF2, 0xF2, 0x01, 0x03, 0x00, 0x46, 0x00, 0x00, 0x7E] : Bytes).length - 2) 0xFF) =
      decode_height [0xF2, 0xF2, 0x01, 0x03, 0x00, 0x46, 0x00, 0x00, 0x7E] :=
  (C9_checksum_independent [0xF2, 0xF2, 0x01, 0x03, 0x00, 0x46, 0x00, 0x00, 0x7E] 0xFF
    (by decide) (by decide)).1

lemma getElem?_eq_some_getD (l : Bytes) (i : Nat) (h : i < l.length) :
    l[i]? = some (l.getD i 0) := by
  rw [List.getElem?_eq_getElem h]
  congr 1
  rw [List.getD_eq_getElem?_getD, List.getElem?_eq_getElem h]
  rfl

/-- C10: the notification-decode path is total — on every input byte
sequence, every indexed access of the height decode (bytes 0–5 and the
final byte) and of the lock check (bytes 0–4) is guarded by the preceding
length checks, so the access-checked decoders never hit an out-of-bounds
read and agree with the decoders everywhere. -/
theorem C10_decode_total (packet : Bytes) :
    decode_height_checked packet = some (decode_height packet) ∧
    decode_lock_checked packet = some (decode_lock packet) := by
  constructor
  · unfold decode_height_checked
    rw [decode_height_eq]
    by_cases h7 : packet.length < 7
    · rw [if_pos h7, if_pos h7]
    · rw [if_neg h7, if_neg h7,
        getElem?_eq_some_getD packet (packet.length - 1) (by omega)]
      dsimp only
      by_cases ht : packet.getD (packet.length - 1) 0 ≠ END_BYTE
      · rw [if_pos ht, if_pos ht]
      · rw [if_neg ht, if_neg ht,
          getElem?_eq_some_getD packet 0 (by omega), getElem?_eq_some_getD packet 1 (by omega),
          getElem?_eq_some_getD packet 2 (by omega), getElem?_eq_some_getD packet 3 (by omega)]
        dsimp only
        by_cases hA : packet.getD 0 0 = 0xF1 ∧ packet.getD 1 0 = 0xF1 ∧
            0x02 ≤ packet.getD 3 0 ∧ (packet.getD 2 0 = 0x07 ∨ packet.getD 2 0 = 0x15)
        · rw [if_pos hA, if_pos hA,
            getElem?_eq_some_getD packet 4 (by omega), getElem?_eq_some_getD packet 5 (by omega)]
        · rw [if_neg hA, if_neg hA]
          by_cases hB : packet.getD 0 0 = 0xF2 ∧ packet.getD 1 0 = 0xF2 ∧
              packet.getD 2 0 = 0x01 ∧ 0x03 ≤ packet.getD 3 0
          · rw [if_pos hB, if_pos hB,
              getElem?_eq_some_getD packet 4 (by omega), getElem?_eq_some_getD packet 5 (by omega)]
          · rw [if_neg hB, if_neg hB]
  · unfold decode_lock_checked decode_lock
    by_cases h6 : 6 ≤ packet.length
    · rw [if_pos h6,
        getElem?_eq_some_getD packet 0 (by omega), getElem?_eq_some_getD packet 1 (by omega),
        getElem?_eq_some_getD packet 2 (by omega), getElem?_eq_some_getD packet 3 (by omega)]
      dsimp only
      by_cases hs : packet.getD 0 0 = 0xF2 ∧ packet.getD 1 0 = 0xF2 ∧
          packet.getD 2 0 = 0x1F ∧ packet.getD 3 0 = 0x01
      · rw [if_pos hs, getElem?_eq_some_getD packet 4 (by omega)]
        dsimp only
        rw [if_pos (show lock_frame_shape packet from
          ⟨h6, hs.1, hs.2.1, hs.2.2.1, hs.2.2.2⟩)]
      · rw [if_neg hs, if_neg (show ¬ lock_frame_shape packet from
          fun h => hs ⟨h.2.1, h.2.2.1, h.2.2.2.1, h.2.2.2.2⟩)]
    · rw [if_neg h6, if_neg (show ¬ lock_frame_shape packet from fun h => h6 h.1)]

end Eliot
